import Mathlib

/-!
Verification development for the websocket hub of
`internal/controllers/websocket_controller.go`.

The hub (`WebSocketController`) is embedded shallowly:

* a Go `*Client` is modelled by a `Client` record whose `cid` field stands
  for the pointer identity of the Go value (and hence also identifies its
  `Conn` handle and its `Send` channel);
* the `Send` channel of each client is modelled by a `Mailbox` stored in a
  function `Nat → Mailbox` keyed by `cid`; `closed` records whether
  `close(client.Send)` has run, and `panicked` records whether a Go runtime
  panic occurred on that channel (closing an already-closed channel, or
  sending on a closed channel);
* the `clients` map (`map[int64]*Client`) is an association list with Go
  map semantics (`mapInsert` overwrites the binding for an existing key,
  `mapDelete` removes it, `findClient` looks it up);
* the three `select` arms of `WebSocketController.Run` become the three
  constructors of `HubEvent`, and one iteration of the `for`/`select` loop
  is `stepHub`; a sequence of loop iterations is `runHub`.
-/

/-- One live connection: Go struct `Client` (websocket_controller.go:22-27).
`cid` models the pointer identity of the Go `*Client` (distinct allocations
have distinct `cid`s); the `Conn` handle and `Send` channel of the client are
identified by the same `cid`. `UserID` and `Username` are the identity fields. -/
structure Client where
  cid : Nat
  UserID : Int
  Username : String
  deriving DecidableEq

/-- A routed frame: Go struct `Message` (websocket_controller.go:29-35).
`Timestamp` models `time.Time` as a natural number of time units. -/
structure Message where
  SenderID : Int
  SenderName : String
  ReceiverID : Int
  Content : String
  Timestamp : Nat
  deriving DecidableEq

/-- The state of one Go channel `Send chan []byte`: the queue of frames
enqueued so far (each frame a byte string), whether `close` has been called,
and whether a channel operation has panicked (double close or send after
close, both runtime panics in Go). -/
structure Mailbox where
  queue : List String
  closed : Bool
  panicked : Bool
  deriving DecidableEq

/-- Sending a frame on the channel: `receiver.Send <- ...` /
`client.Send <- ...`. Sending on a closed channel panics in Go. -/
def enqueue (f : String) (mb : Mailbox) : Mailbox :=
  ⟨mb.queue ++ [f], mb.closed, mb.panicked || mb.closed⟩

/-- Closing the channel: `close(client.Send)` (websocket_controller.go:142).
Closing an already-closed channel panics in Go. -/
def closeChan (mb : Mailbox) : Mailbox :=
  ⟨mb.queue, true, mb.panicked || mb.closed⟩

/-- Pointwise update of the mailbox store at channel identity `x`. -/
def updateMbox (mbs : Nat → Mailbox) (x : Nat) (g : Mailbox → Mailbox) : Nat → Mailbox :=
  fun n => if n = x then g (mbs n) else mbs n

/-- Lookup in the `clients` map: `wsc.clients[id]` with `ok` as `isSome`. -/
def findClient : List (Int × Client) → Int → Option Client
  | [], _ => none
  | (k, v) :: rest, id => if k = id then some v else findClient rest id

/-- Go map assignment `wsc.clients[client.UserID] = client`
(websocket_controller.go:132): overwrite an existing binding, else append. -/
def mapInsert (k : Int) (v : Client) : List (Int × Client) → List (Int × Client)
  | [] => [(k, v)]
  | (k0, v0) :: rest => if k0 = k then (k, v) :: rest else (k0, v0) :: mapInsert k v rest

/-- Go map deletion `delete(wsc.clients, client.UserID)`
(websocket_controller.go:141). -/
def mapDelete (k : Int) : List (Int × Client) → List (Int × Client)
  | [] => []
  | (k0, v0) :: rest => if k0 = k then rest else (k0, v0) :: mapDelete k rest

/-- The keys of the registry map. -/
def keys (l : List (Int × Client)) : List Int :=
  l.map Prod.fst

/-- The channel identities of the clients in the registry map. -/
def cids (l : List (Int × Client)) : List Nat :=
  l.map fun e => e.2.cid

/-- The Go default `%s`-formatting of the anonymous status struct
(websocket_controller.go:161-169, formatted at line 173): the struct has no
`String` method, so `fmt` prints `{field1 field2 field3}` where each non-string
field rendered with the `%s` verb yields the wrong-verb form
`%!s(type=value)`. The `json:` struct tags are ignored by `fmt.Sprintf`. -/
def goFmtStatus (uid : Int) (uname : String) (online : Bool) : String :=
  "\x7b%!s(int64=" ++ toString uid ++ ") " ++ uname ++ " %!s(bool="
    ++ (if online then "true" else "false") ++ ")\x7d"

/-- The presence frame actually built by `notifyUserStatus`
(websocket_controller.go:173):
`fmt.Sprintf(..type..status..data.., statusMessage)` wrapping `goFmtStatus`. -/
def presenceFrame (uid : Int) (uname : String) (online : Bool) : String :=
  "\x7b\"type\":\"status\",\"data\":" ++ goFmtStatus uid uname online ++ "\x7d"

/-- The JSON presence frame the specification describes:
`type status, data with user_id, username, online` as proper JSON. Modelled
from the spec to compare with the frame the code builds. -/
def specPresenceFrame (uid : Int) (uname : String) (online : Bool) : String :=
  "\x7b\"type\":\"status\",\"data\":\x7b\"user_id\":" ++ toString uid
    ++ ",\"username\":\"" ++ uname ++ "\",\"online\":"
    ++ (if online then "true" else "false") ++ "\x7d\x7d"

/-- The loop body of `notifyUserStatus` (websocket_controller.go:171-175):
iterate the registry and send frame `f` on the channel of every client whose
key differs from `uid`. -/
def notifyFold (uid : Int) (f : String) :
    List (Int × Client) → (Nat → Mailbox) → Nat → Mailbox
  | [], mbs => mbs
  | (id, cl) :: rest, mbs =>
      notifyFold uid f rest (if id = uid then mbs else updateMbox mbs cl.cid (enqueue f))

/-- The hub state: the `clients` registry and the mailbox store. -/
structure HubState where
  registry : List (Int × Client)
  mailboxes : Nat → Mailbox

/-- The three event kinds received by `WebSocketController.Run`
(websocket_controller.go:127-158): the `register`, `unregister` and
`broadcast` channels. -/
inductive HubEvent
  | register (c : Client)
  | unregister (c : Client)
  | route (m : Message)

/-- One iteration of the `for`/`select` loop in `Run`
(websocket_controller.go:127-158):

* `register c` — insert `c` into the map keyed by `c.UserID` (line 132),
  then `notifyUserStatus(c.UserID, c.Username, true)` iterating the
  post-insert map (lines 136, 171-175);
* `unregister c` — if the map has any entry for `c.UserID` (line 140) then
  delete it (line 141) and close `c`'s channel (line 142); in both cases
  then `notifyUserStatus(c.UserID, c.Username, false)` (line 147) iterating
  the current map;
* `route m` — if the map has a receiver under `m.ReceiverID` (line 152)
  send the raw content bytes `[]byte(m.Content)` on its channel (line 153),
  else do nothing. -/
def stepHub (s : HubState) : HubEvent → HubState
  | .register c =>
      HubState.mk (mapInsert c.UserID c s.registry)
        (notifyFold c.UserID (presenceFrame c.UserID c.Username true)
          (mapInsert c.UserID c s.registry) s.mailboxes)
  | .unregister c =>
      match findClient s.registry c.UserID with
      | some _ =>
          HubState.mk (mapDelete c.UserID s.registry)
            (notifyFold c.UserID (presenceFrame c.UserID c.Username false)
              (mapDelete c.UserID s.registry)
              (updateMbox s.mailboxes c.cid closeChan))
      | none =>
          HubState.mk s.registry
            (notifyFold c.UserID (presenceFrame c.UserID c.Username false)
              s.registry s.mailboxes)
  | .route m =>
      match findClient s.registry m.ReceiverID with
      | some r =>
          HubState.mk s.registry
            (updateMbox s.mailboxes r.cid (enqueue m.Content))
      | none => s

/-- A sequence of loop iterations of `Run`, in receipt order. -/
def runHub (s : HubState) : List HubEvent → HubState
  | [] => s
  | e :: es => runHub (stepHub s e) es

/-- The stamping done by `readMessages` on every decoded inbound frame
(websocket_controller.go:105-107): overwrite `SenderID` and `SenderName`
from the reading client's identity and stamp the current time, regardless
of what the wire frame carried in those fields. -/
def stampMessage (c : Client) (m : Message) (now : Nat) : Message :=
  { m with SenderID := c.UserID, SenderName := c.Username, Timestamp := now }

/-- The empty hub state: fresh `clients` map, every channel open and empty
(`NewWebSocketController`, websocket_controller.go:45-52). -/
def s0 : HubState :=
  HubState.mk [] (fun _ => ⟨[], false, false⟩)

theorem updateMbox_same (mbs : Nat → Mailbox) (x : Nat) (g : Mailbox → Mailbox) :
    updateMbox mbs x g x = g (mbs x) := by
  simp [updateMbox]

theorem updateMbox_other (mbs : Nat → Mailbox) (x : Nat) (g : Mailbox → Mailbox)
    (n : Nat) (h : n ≠ x) : updateMbox mbs x g n = mbs n := by
  simp [updateMbox, h]

theorem enqueue_queue (f : String) (mb : Mailbox) : (enqueue f mb).queue = mb.queue ++ [f] := rfl

theorem enqueue_closed (f : String) (mb : Mailbox) : (enqueue f mb).closed = mb.closed := rfl

theorem closeChan_queue (mb : Mailbox) : (closeChan mb).queue = mb.queue := rfl

theorem cids_cons (e : Int × Client) (l : List (Int × Client)) :
    cids (e :: l) = e.2.cid :: cids l := rfl

theorem mem_cids_of_mem {l : List (Int × Client)} {e : Int × Client} (h : e ∈ l) :
    e.2.cid ∈ cids l :=
  List.mem_map_of_mem _ h

theorem notifyFold_closed (uid : Int) (f : String) :
    ∀ (l : List (Int × Client)) (mbs : Nat → Mailbox) (x : Nat),
      (notifyFold uid f l mbs x).closed = (mbs x).closed := by
  intro l
  induction l with
  | nil => intro mbs x; rfl
  | cons e rest ih =>
      intro mbs x
      obtain ⟨id, cl⟩ := e
      simp only [notifyFold]
      rw [ih]
      by_cases hid : id = uid
      · simp [hid]
      · simp only [if_neg hid]
        by_cases hx : x = cl.cid
        · rw [hx, updateMbox_same, enqueue_closed]
        · rw [updateMbox_other _ _ _ _ hx]

theorem notifyFold_skip (uid : Int) (f : String) :
    ∀ (l : List (Int × Client)) (mbs : Nat → Mailbox) (x : Nat),
      (∀ e ∈ l, e.2.cid = x → e.1 = uid) →
      notifyFold uid f l mbs x = mbs x := by
  intro l
  induction l with
  | nil => intro mbs x _; rfl
  | cons e rest ih =>
      intro mbs x h
      obtain ⟨id, cl⟩ := e
      simp only [notifyFold]
      rw [ih _ _ (fun e he hc => h e (List.mem_cons_of_mem _ he) hc)]
      by_cases hid : id = uid
      · simp [hid]
      · simp only [if_neg hid]
        have hcid : cl.cid ≠ x := fun hc => hid (h (id, cl) (List.mem_cons_self _ _) hc)
        exact updateMbox_other _ _ _ _ (fun hx => hcid hx.symm)

theorem notifyFold_hit (uid : Int) (f : String) :
    ∀ (l : List (Int × Client)) (mbs : Nat → Mailbox) (id : Int) (cl : Client),
      (cids l).Nodup → (id, cl) ∈ l → id ≠ uid →
      notifyFold uid f l mbs cl.cid = enqueue f (mbs cl.cid) := by
  intro l
  induction l with
  | nil => intro mbs id cl _ hm _; cases hm
  | cons e rest ih =>
      intro mbs id cl hnd hm hid
      obtain ⟨id0, cl0⟩ := e
      rw [cids_cons, List.nodup_cons] at hnd
      rcases List.mem_cons.mp hm with heq | hmem
      · obtain ⟨h1, h2⟩ := Prod.mk.injEq .. ▸ heq
        subst h1; subst h2
        simp only [notifyFold, if_neg hid]
        rw [notifyFold_skip uid f rest _ cl.cid
          (fun e he hc => absurd (hc ▸ mem_cids_of_mem he) hnd.1)]
        exact updateMbox_same _ _ _
      · have hne : cl0.cid ≠ cl.cid := fun hc => hnd.1 (hc ▸ mem_cids_of_mem hmem)
        simp only [notifyFold]
        by_cases hid0 : id0 = uid
        · rw [if_pos hid0]
          exact ih _ id cl hnd.2 hmem hid
        · rw [if_neg hid0, ih _ id cl hnd.2 hmem hid,
            updateMbox_other _ _ _ _ (fun hx => hne hx.symm)]

theorem cid_inj {l : List (Int × Client)} (hnd : (cids l).Nodup)
    {e1 e2 : Int × Client} (h1 : e1 ∈ l) (h2 : e2 ∈ l) (h : e1.2.cid = e2.2.cid) :
    e1 = e2 :=
  List.inj_on_of_nodup_map hnd h1 h2 h

theorem mem_mapInsert_elim (k : Int) (v : Client) :
    ∀ (l : List (Int × Client)) (e : Int × Client),
      e ∈ mapInsert k v l → e = (k, v) ∨ e ∈ l := by
  intro l
  induction l with
  | nil => intro e he; simpa [mapInsert] using he
  | cons e0 rest ih =>
      intro e he
      obtain ⟨k0, v0⟩ := e0
      by_cases hk : k0 = k
      · rw [mapInsert, if_pos hk] at he
        rcases List.mem_cons.mp he with h | h
        · exact Or.inl h
        · exact Or.inr (List.mem_cons_of_mem _ h)
      · rw [mapInsert, if_neg hk] at he
        rcases List.mem_cons.mp he with h | h
        · exact Or.inr (h ▸ List.mem_cons_self _ _)
        · rcases ih e h with h' | h'
          · exact Or.inl h'
          · exact Or.inr (List.mem_cons_of_mem _ h')

theorem mem_mapInsert_of_ne (k : Int) (v : Client) :
    ∀ (l : List (Int × Client)) (e : Int × Client),
      e ∈ l → e.1 ≠ k → e ∈ mapInsert k v l := by
  intro l
  induction l with
  | nil => intro e he _; cases he
  | cons e0 rest ih =>
      intro e he hne
      obtain ⟨k0, v0⟩ := e0
      by_cases hk : k0 = k
      · rw [mapInsert, if_pos hk]
        rcases List.mem_cons.mp he with h | h
        · exact absurd (h ▸ hk) hne
        · exact List.mem_cons_of_mem _ h
      · rw [mapInsert, if_neg hk]
        rcases List.mem_cons.mp he with h | h
        · exact h ▸ List.mem_cons_self _ _
        · exact List.mem_cons_of_mem _ (ih e h hne)

theorem self_mem_mapInsert (k : Int) (v : Client) :
    ∀ (l : List (Int × Client)), (k, v) ∈ mapInsert k v l := by
  intro l
  induction l with
  | nil => exact List.mem_cons_self _ _
  | cons e0 rest ih =>
      obtain ⟨k0, v0⟩ := e0
      by_cases hk : k0 = k
      · rw [mapInsert, if_pos hk]; exact List.mem_cons_self _ _
      · rw [mapInsert, if_neg hk]; exact List.mem_cons_of_mem _ ih

theorem cids_mapInsert_nodup (k : Int) (v : Client) :
    ∀ (l : List (Int × Client)), (cids l).Nodup → (∀ e ∈ l, e.2.cid ≠ v.cid) →
      (cids (mapInsert k v l)).Nodup := by
  intro l
  induction l with
  | nil => intro _ _; simp [mapInsert, cids]
  | cons e0 rest ih =>
      intro hnd hfresh
      obtain ⟨k0, v0⟩ := e0
      rw [cids_cons, List.nodup_cons] at hnd
      by_cases hk : k0 = k
      · rw [mapInsert, if_pos hk, cids_cons, List.nodup_cons]
        refine ⟨fun hmem => ?_, hnd.2⟩
        rcases List.mem_map.mp hmem with ⟨e, he, hce⟩
        exact hfresh e (List.mem_cons_of_mem _ he) hce
      · rw [mapInsert, if_neg hk, cids_cons, List.nodup_cons]
        refine ⟨fun hmem => ?_, ih hnd.2 (fun e he => hfresh e (List.mem_cons_of_mem _ he))⟩
        rcases List.mem_map.mp hmem with ⟨e, he, hce⟩
        rcases mem_mapInsert_elim k v rest e he with h | h
        · exact hfresh (k0, v0) (List.mem_cons_self _ _) (by rw [← hce, h])
        · exact hnd.1 (hce ▸ mem_cids_of_mem h)

theorem mapDelete_sublist (k : Int) :
    ∀ (l : List (Int × Client)), List.Sublist (mapDelete k l) l := by
  intro l
  induction l with
  | nil => exact List.Sublist.refl _
  | cons e0 rest ih =>
      obtain ⟨k0, v0⟩ := e0
      by_cases hk : k0 = k
      · rw [mapDelete, if_pos hk]
        exact List.sublist_cons_of_sublist _ (List.Sublist.refl _)
      · rw [mapDelete, if_neg hk]
        exact List.Sublist.cons₂ _ ih

theorem mem_mapDelete_of_ne (k : Int) :
    ∀ (l : List (Int × Client)) (e : Int × Client),
      e ∈ l → e.1 ≠ k → e ∈ mapDelete k l := by
  intro l
  induction l with
  | nil => intro e he _; cases he
  | cons e0 rest ih =>
      intro e he hne
      obtain ⟨k0, v0⟩ := e0
      by_cases hk : k0 = k
      · rw [mapDelete, if_pos hk]
        rcases List.mem_cons.mp he with h | h
        · exact absurd (h ▸ hk) hne
        · exact h
      · rw [mapDelete, if_neg hk]
        rcases List.mem_cons.mp he with h | h
        · exact h ▸ List.mem_cons_self _ _
        · exact List.mem_cons_of_mem _ (ih e h hne)

theorem cids_mapDelete_nodup {k : Int} {l : List (Int × Client)}
    (hnd : (cids l).Nodup) : (cids (mapDelete k l)).Nodup :=
  List.Nodup.sublist (List.Sublist.map _ (mapDelete_sublist k l)) hnd

theorem findClient_none_of_not_mem_keys :
    ∀ (l : List (Int × Client)) (k : Int), k ∉ keys l → findClient l k = none := by
  intro l
  induction l with
  | nil => intro k _; rfl
  | cons e0 rest ih =>
      intro k hk
      obtain ⟨k0, v0⟩ := e0
      have h1 : k0 ≠ k := fun h => hk (h ▸ List.mem_cons_self _ _)
      rw [findClient, if_neg h1]
      exact ih k (fun h => hk (List.mem_cons_of_mem _ h))

theorem findClient_mapDelete_self :
    ∀ (l : List (Int × Client)) (k : Int), (keys l).Nodup →
      findClient (mapDelete k l) k = none := by
  intro l
  induction l with
  | nil => intro k _; rfl
  | cons e0 rest ih =>
      intro k hnd
      obtain ⟨k0, v0⟩ := e0
      have hnd' : k0 ∉ keys rest ∧ (keys rest).Nodup := List.nodup_cons.mp hnd
      by_cases hk : k0 = k
      · rw [mapDelete, if_pos hk]
        exact findClient_none_of_not_mem_keys rest k (hk ▸ hnd'.1)
      · rw [mapDelete, if_neg hk, findClient, if_neg hk]
        exact ih k hnd'.2

theorem findClient_mem :
    ∀ (l : List (Int × Client)) (k : Int) (v : Client),
      findClient l k = some v → (k, v) ∈ l := by
  intro l
  induction l with
  | nil => intro k v h; cases h
  | cons e0 rest ih =>
      intro k v h
      obtain ⟨k0, v0⟩ := e0
      by_cases hk : k0 = k
      · rw [findClient, if_pos hk] at h
        exact (Option.some.injEq .. ▸ h) ▸ hk ▸ List.mem_cons_self _ _
      · rw [findClient, if_neg hk] at h
        exact List.mem_cons_of_mem _ (ih k v h)

/-- Connection of user 1 named alice (pointer identity 1). -/
def aliceClient : Client := ⟨1, 1, "alice"⟩

/-- Connection of user 2 named bob (pointer identity 2). -/
def bobClient : Client := ⟨2, 2, "bob"⟩

/-- A first connection of user 7 (pointer identity 10). -/
def carol1 : Client := ⟨10, 7, "carol"⟩

/-- A second, newer connection of the same user 7 (pointer identity 11). -/
def carol2 : Client := ⟨11, 7, "carol"⟩

/-- An inbound wire frame addressed to user 2 with content hi, carrying
spoofed sender fields that `readMessages` must overwrite. -/
def wireHi : Message := ⟨999, "mallory", 2, "hi", 0⟩

/-- The full routed record the specification says is delivered into the
receiver's mailbox (sender id and name, receiver id, content, timestamp),
as a JSON object. Modelled from the spec to compare with the frame the code
actually enqueues; the code has no such encoder. -/
def specDirectFrame (m : Message) : String :=
  "\x7b\"sender_id\":" ++ toString m.SenderID ++ ",\"sender_name\":\""
    ++ m.SenderName ++ "\",\"receiver_id\":" ++ toString m.ReceiverID
    ++ ",\"content\":\"" ++ m.Content ++ "\",\"timestamp\":"
    ++ toString m.Timestamp ++ "\x7d"

/-- C1 is refuted on the code: after user 7's first connection `carol1` is
replaced in the registry by the newer connection `carol2`, processing
`unregister carol1` still deletes the registry entry — the guard at
websocket_controller.go:140 checks only that some entry exists under the
key, not that it points at `carol1` — so the entry for the newer connection
is removed rather than left unchanged. -/
theorem c1_counterexample :
    findClient ((runHub s0 [.register carol1, .register carol2]).registry) 7
      = some carol2 ∧
    findClient ((runHub s0 [.register carol1, .register carol2,
      .unregister carol1]).registry) 7 = none := by
  exact ⟨rfl, rfl⟩

/-- C1 amended: processing `unregister c` removes the registry entry keyed
by `c.UserID` whenever any entry exists under that key — even when that
entry points at a different, newer Client that replaced `c` — and closes
`c`'s own mailbox in that case. -/
theorem c1_unregister_removes_any_entry (s : HubState) (c c0 : Client)
    (hnd : (keys s.registry).Nodup)
    (hfind : findClient s.registry c.UserID = some c0) :
    findClient (stepHub s (.unregister c)).registry c.UserID = none ∧
    ((stepHub s (.unregister c)).mailboxes c.cid).closed = true := by
  constructor
  · simp only [stepHub, hfind]
    exact findClient_mapDelete_self _ _ hnd
  · simp only [stepHub, hfind]
    rw [notifyFold_closed, updateMbox_same]
    rfl

/-- Witness for the amended C1 at a concrete state: registry holding
`carol2` under key 7, unregistering the replaced connection `carol1`. -/
theorem c1_witness :
    findClient (stepHub (runHub s0 [.register carol1, .register carol2])
      (.unregister carol1)).registry carol1.UserID = none ∧
    ((stepHub (runHub s0 [.register carol1, .register carol2])
      (.unregister carol1)).mailboxes carol1.cid).closed = true :=
  c1_unregister_removes_any_entry _ carol1 carol2 (by decide) (by decide)

/-- C2 is refuted on the code: unregistering `carol1` twice with an
intervening registration of the newer connection `carol2` under the same
userID closes `carol1`'s already-closed mailbox a second time — the second
`unregister carol1` finds the entry for `carol2` under key 7, takes the
guarded branch, and runs `close(client.Send)` on `carol1`'s channel again,
a Go runtime panic (recorded by the `panicked` flag). -/
theorem c2_counterexample :
    ((runHub s0 [.register carol1, .unregister carol1]).mailboxes
      carol1.cid).closed = true ∧
    ((runHub s0 [.register carol1, .unregister carol1, .register carol2,
      .unregister carol1]).mailboxes carol1.cid).panicked = true := by
  exact ⟨rfl, rfl⟩

/-- C2 amended: processing an unregister event always leaves the registry
without an entry under that userID, and an unregister event for a userID
with no registry entry closes no mailbox — so unregistering the same Client
twice WITHOUT an intervening registration under its userID closes its
mailbox at most once; with an intervening registration under the same
userID the already-closed mailbox is closed again (Go panic). -/
theorem c2_close_at_most_once (s : HubState) (c : Client) (x : Nat)
    (hnd : (keys s.registry).Nodup) :
    findClient (stepHub s (.unregister c)).registry c.UserID = none ∧
    (findClient s.registry c.UserID = none →
      ((stepHub s (.unregister c)).mailboxes x).closed
        = (s.mailboxes x).closed) := by
  constructor
  · cases hf : findClient s.registry c.UserID with
    | some c0 =>
        simp only [stepHub, hf]
        exact findClient_mapDelete_self _ _ hnd
    | none => simp only [stepHub, hf]
  · intro hfind
    simp only [stepHub, hfind]
    exact notifyFold_closed _ _ _ _ _

/-- Witness for the amended C2 at a concrete state: after `carol1` has
already been unregistered, a second unregister closes nothing. -/
theorem c2_witness :
    findClient (stepHub (runHub s0 [.register carol1, .unregister carol1])
      (.unregister carol1)).registry carol1.UserID = none ∧
    (findClient (runHub s0 [.register carol1,
        .unregister carol1]).registry carol1.UserID = none →
      ((stepHub (runHub s0 [.register carol1, .unregister carol1])
        (.unregister carol1)).mailboxes carol1.cid).closed
          = ((runHub s0 [.register carol1,
              .unregister carol1]).mailboxes carol1.cid).closed) :=
  c2_close_at_most_once _ carol1 carol1.cid (by decide)

/-- C3 is refuted on the code: in the alice-to-bob scenario the frame
enqueued onto bob's mailbox is the raw content bytes `[]byte("hi")`
(websocket_controller.go:153), not a record carrying the sender fields —
it is not the full routed record the claim describes. -/
theorem c3_counterexample :
    ((runHub s0 [.register aliceClient, .register bobClient,
      .route (stampMessage aliceClient wireHi 100)]).mailboxes
        bobClient.cid).queue = ["hi"] ∧
    "hi" ≠ specDirectFrame (stampMessage aliceClient wireHi 100) := by
  constructor
  · rfl
  · decide

/-- C3 amended: the ROUTE EVENT submitted for alice's inbound frame carries
`sender_id` 1, `sender_name` alice, `receiver_id` 2, content hi and a
timestamp greater than or equal to the send time; the frame enqueued onto
bob's mailbox is only the raw content bytes of that message. -/
theorem c3_route_event_and_delivery (nowT sendT : Nat) (h : sendT ≤ nowT) :
    (stampMessage aliceClient wireHi nowT).SenderID = 1 ∧
    (stampMessage aliceClient wireHi nowT).SenderName = "alice" ∧
    (stampMessage aliceClient wireHi nowT).ReceiverID = 2 ∧
    (stampMessage aliceClient wireHi nowT).Content = "hi" ∧
    sendT ≤ (stampMessage aliceClient wireHi nowT).Timestamp ∧
    ((runHub s0 [.register aliceClient, .register bobClient,
      .route (stampMessage aliceClient wireHi nowT)]).mailboxes
        bobClient.cid).queue = ["hi"] :=
  ⟨rfl, rfl, rfl, rfl, h, rfl⟩

/-- Witness for the amended C3 with send time 50 and stamp time 100. -/
theorem c3_witness :
    (stampMessage aliceClient wireHi 100).SenderID = 1 ∧
    (stampMessage aliceClient wireHi 100).SenderName = "alice" ∧
    (stampMessage aliceClient wireHi 100).ReceiverID = 2 ∧
    (stampMessage aliceClient wireHi 100).Content = "hi" ∧
    50 ≤ (stampMessage aliceClient wireHi 100).Timestamp ∧
    ((runHub s0 [.register aliceClient, .register bobClient,
      .route (stampMessage aliceClient wireHi 100)]).mailboxes
        bobClient.cid).queue = ["hi"] :=
  c3_route_event_and_delivery 100 50 (by decide)

/-- C4 is a code bug: the presence frame the code enqueues is built with
`fmt.Sprintf` applying the `%s` verb to the status struct
(websocket_controller.go:173), which ignores the `json:` struct tags and
prints Go's wrong-verb rendering — after unregistering alice, bob receives
the malformed frame, not the JSON object the claim (and the struct's own
json tags) describe. -/
theorem c4_presence_frame_not_json :
    ((runHub s0 [.register aliceClient, .register bobClient,
      .unregister aliceClient]).mailboxes bobClient.cid).queue
        = [presenceFrame 1 "alice" false] ∧
    presenceFrame 1 "alice" false ≠ specPresenceFrame 1 "alice" false := by
  constructor
  · rfl
  · decide

/-- C5 confirmed: `readMessages` stamps `SenderID` and `SenderName` from the
reading Client's identity (websocket_controller.go:105-106), so the route
event's sender fields equal the client's identity, and two inbound frames
differing only in their wire-supplied sender fields yield identical route
events. -/
theorem c5_sender_stamped_server_side (c : Client) (m1 m2 : Message)
    (nowT : Nat) (hr : m1.ReceiverID = m2.ReceiverID)
    (hc : m1.Content = m2.Content) :
    (stampMessage c m1 nowT).SenderID = c.UserID ∧
    (stampMessage c m1 nowT).SenderName = c.Username ∧
    stampMessage c m1 nowT = stampMessage c m2 nowT := by
  refine ⟨rfl, rfl, ?_⟩
  simp [stampMessage, hr, hc]

/-- Witness for C5: two frames differing only in spoofed sender fields. -/
theorem c5_witness :
    (stampMessage aliceClient wireHi 3).SenderID = aliceClient.UserID ∧
    (stampMessage aliceClient wireHi 3).SenderName = aliceClient.Username ∧
    stampMessage aliceClient wireHi 3
      = stampMessage aliceClient ⟨5, "eve", 2, "hi", 77⟩ 3 :=
  c5_sender_stamped_server_side aliceClient wireHi ⟨5, "eve", 2, "hi", 77⟩ 3
    (by decide) (by decide)

/-- C6 confirmed: a route event whose receiver has no registry entry is a
no-op — the guarded lookup at websocket_controller.go:152 fails and the
whole hub state (registry and every mailbox) is returned unchanged, with no
error surfaced to the sender. -/
theorem c6_route_miss_noop (s : HubState) (m : Message)
    (h : findClient s.registry m.ReceiverID = none) :
    stepHub s (.route m) = s := by
  simp only [stepHub, h]

/-- Witness for C6: routing to unregistered user 42 in the empty hub. -/
theorem c6_witness : stepHub s0 (.route ⟨1, "alice", 42, "hi", 5⟩) = s0 :=
  c6_route_miss_noop s0 ⟨1, "alice", 42, "hi", 5⟩ (by decide)

/-- C7 confirmed: `notifyUserStatus` runs over the registry as it stands
after the register insertion (respectively after the unregister deletion)
and enqueues the presence frame onto every client whose key differs from
the (un)registering user's id, skipping that user itself
(websocket_controller.go:171-175). Under the well-formedness that registry
entries have pairwise distinct channel identities (and, for register, that
the new connection's channel is fresh; for unregister, that the entry
points at the unregistering client), every other registered client's queue
gains exactly one presence frame and the (un)registered client's own queue
gains none. -/
theorem c7_presence_fanout :
    (∀ (s : HubState) (c : Client) (id : Int) (cl : Client),
      (cids s.registry).Nodup →
      (∀ e ∈ s.registry, e.2.cid ≠ c.cid) →
      (id, cl) ∈ s.registry → id ≠ c.UserID →
      ((stepHub s (.register c)).mailboxes c.cid).queue
        = (s.mailboxes c.cid).queue ∧
      ((stepHub s (.register c)).mailboxes cl.cid).queue
        = (s.mailboxes cl.cid).queue
          ++ [presenceFrame c.UserID c.Username true]) ∧
    (∀ (s : HubState) (c : Client) (id : Int) (cl : Client),
      (cids s.registry).Nodup →
      findClient s.registry c.UserID = some c →
      (id, cl) ∈ s.registry → id ≠ c.UserID →
      ((stepHub s (.unregister c)).mailboxes c.cid).queue
        = (s.mailboxes c.cid).queue ∧
      ((stepHub s (.unregister c)).mailboxes cl.cid).queue
        = (s.mailboxes cl.cid).queue
          ++ [presenceFrame c.UserID c.Username false]) := by
  constructor
  · intro s c id cl hnd hfresh hmem hne
    constructor
    · show (notifyFold c.UserID _ (mapInsert c.UserID c s.registry)
        s.mailboxes c.cid).queue = _
      rw [notifyFold_skip]
      intro e he hcid
      rcases mem_mapInsert_elim c.UserID c s.registry e he with h | h
      · rw [h]
      · exact absurd hcid (hfresh e h)
    · show (notifyFold c.UserID _ (mapInsert c.UserID c s.registry)
        s.mailboxes cl.cid).queue = _
      rw [notifyFold_hit c.UserID _ _ _ id cl
        (cids_mapInsert_nodup c.UserID c s.registry hnd hfresh)
        (mem_mapInsert_of_ne c.UserID c s.registry (id, cl) hmem hne) hne]
      exact enqueue_queue _ _
  · intro s c id cl hnd hfind hmem hne
    have hcmem : (c.UserID, c) ∈ s.registry := findClient_mem _ _ _ hfind
    have hclcid : cl.cid ≠ c.cid := by
      intro hcc
      have := cid_inj hnd hmem hcmem hcc
      exact hne (congrArg Prod.fst this)
    constructor
    · simp only [stepHub, hfind]
      rw [notifyFold_skip]
      · rw [updateMbox_same]
        exact closeChan_queue _
      · intro e he hcid
        have he' : e ∈ s.registry := (mapDelete_sublist c.UserID s.registry).subset he
        have := cid_inj hnd he' hcmem hcid
        exact congrArg Prod.fst this
    · simp only [stepHub, hfind]
      rw [notifyFold_hit c.UserID _ _ _ id cl (cids_mapDelete_nodup hnd)
        (mem_mapDelete_of_ne c.UserID s.registry (id, cl) hmem hne) hne,
        updateMbox_other _ _ _ _ hclcid]
      exact enqueue_queue _ _

/-- Witness for C7: registering bob while alice is registered (alice gains
one online frame for bob, bob gains none), and unregistering alice while
bob is registered (bob gains one offline frame for alice, alice gains
none). -/
theorem c7_witness :
    (((stepHub (stepHub s0 (.register aliceClient))
        (.register bobClient)).mailboxes bobClient.cid).queue
      = ((stepHub s0 (.register aliceClient)).mailboxes bobClient.cid).queue ∧
     ((stepHub (stepHub s0 (.register aliceClient))
        (.register bobClient)).mailboxes aliceClient.cid).queue
      = ((stepHub s0 (.register aliceClient)).mailboxes aliceClient.cid).queue
          ++ [presenceFrame bobClient.UserID bobClient.Username true]) ∧
    (((stepHub (runHub s0 [.register aliceClient, .register bobClient])
        (.unregister aliceClient)).mailboxes aliceClient.cid).queue
      = ((runHub s0 [.register aliceClient,
          .register bobClient]).mailboxes aliceClient.cid).queue ∧
     ((stepHub (runHub s0 [.register aliceClient, .register bobClient])
        (.unregister aliceClient)).mailboxes bobClient.cid).queue
      = ((runHub s0 [.register aliceClient,
          .register bobClient]).mailboxes bobClient.cid).queue
          ++ [presenceFrame aliceClient.UserID aliceClient.Username false]) :=
  ⟨c7_presence_fanout.1 (stepHub s0 (.register aliceClient)) bobClient
      1 aliceClient (by decide) (by decide) (by decide) (by decide),
   c7_presence_fanout.2 (runHub s0 [.register aliceClient, .register bobClient])
      aliceClient 2 bobClient (by decide) (by decide) (by decide) (by decide)⟩

/-- Delivery of a block of route events all addressed to a registered
receiver `B`: each one appends its raw content to `B`'s queue, in
submission order. -/
theorem routeRunAux (B : Client) :
    ∀ (msgs : List Message) (s : HubState),
      findClient s.registry B.UserID = some B →
      (∀ m ∈ msgs, m.ReceiverID = B.UserID) →
      ((runHub s (msgs.map HubEvent.route)).mailboxes B.cid).queue
        = (s.mailboxes B.cid).queue ++ msgs.map Message.Content := by
  intro msgs
  induction msgs with
  | nil => intro s _ _; simp [runHub]
  | cons m ms ih =>
      intro s hB hall
      have hm : m.ReceiverID = B.UserID := hall m (List.mem_cons_self _ _)
      have hfind : findClient s.registry m.ReceiverID = some B := hm ▸ hB
      have hstep : stepHub s (.route m)
          = HubState.mk s.registry
              (updateMbox s.mailboxes B.cid (enqueue m.Content)) := by
        simp only [stepHub, hfind]
      have hreg : findClient (HubState.mk s.registry
          (updateMbox s.mailboxes B.cid (enqueue m.Content))).registry
            B.UserID = some B := hB
      simp only [List.map_cons, runHub]
      rw [hstep, ih _ hreg (fun x hx => hall x (List.mem_cons_of_mem _ hx))]
      simp [updateMbox_same, enqueue_queue]

/-- C8 confirmed: with `A` and `B` both registered under distinct ids,
routing `N` messages from `A` to `B` in sequence yields exactly those `N`
frames (the raw content of each message, which is what the hub enqueues) in
`B`'s mailbox, in submission order — FIFO per receiver. -/
theorem c8_fifo_per_receiver (A B : Client) (msgs : List Message)
    (s : HubState) (hAB : A.UserID ≠ B.UserID)
    (hA : findClient s.registry A.UserID = some A)
    (hB : findClient s.registry B.UserID = some B)
    (hmsgs : ∀ m ∈ msgs, m.SenderID = A.UserID ∧ m.ReceiverID = B.UserID) :
    ((runHub s (msgs.map HubEvent.route)).mailboxes B.cid).queue
      = (s.mailboxes B.cid).queue ++ msgs.map Message.Content :=
  routeRunAux B msgs s hB (fun m hm => (hmsgs m hm).2)

/-- Witness for C8: alice routes two messages to bob in sequence; bob's
queue holds exactly their contents in order. -/
theorem c8_witness :
    ((runHub (runHub s0 [.register aliceClient, .register bobClient])
      ([⟨1, "alice", 2, "one", 10⟩, ⟨1, "alice", 2, "two", 11⟩].map
        HubEvent.route)).mailboxes bobClient.cid).queue
      = ((runHub s0 [.register aliceClient,
          .register bobClient]).mailboxes bobClient.cid).queue
        ++ [⟨1, "alice", 2, "one", 10⟩,
            (⟨1, "alice", 2, "two", 11⟩ : Message)].map Message.Content :=
  c8_fifo_per_receiver aliceClient bobClient _ _ (by decide) (by decide)
    (by decide) (by decide)

/-- The primitive operations of one arm of the `Run` select loop, in
program order, used to settle the lock-discipline claim. -/
inductive RunOp
  | lockOp
  | unlockOp
  | mutateRegistryOp
  | closeMailboxOp
  | iterateRegistryOp
  deriving DecidableEq

/-- Program order of the register arm (websocket_controller.go:130-136):
`mu.Lock()`, map insert, `mu.Unlock()`, then `notifyUserStatus` iterating
the registry. -/
def registerArmOps : List RunOp :=
  [.lockOp, .mutateRegistryOp, .unlockOp, .iterateRegistryOp]

/-- Program order of the unregister arm (websocket_controller.go:138-147):
`mu.Lock()`, guarded map delete, channel close, `mu.Unlock()`, then
`notifyUserStatus` iterating the registry. -/
def unregisterArmOps : List RunOp :=
  [.lockOp, .mutateRegistryOp, .closeMailboxOp, .unlockOp, .iterateRegistryOp]

/-- Number of `mu.Lock()`s minus `mu.Unlock()`s among the first `i`
operations of the arm: nonzero exactly when the mutex is held as operation
`i` starts. -/
def lockDepth (ops : List RunOp) (i : Nat) : Nat :=
  ((ops.take i).filter (fun o => o == RunOp.lockOp)).length
    - ((ops.take i).filter (fun o => o == RunOp.unlockOp)).length

/-- Whether every registry iteration of the arm runs while the mutex is
held. -/
def iterUnderLock (ops : List RunOp) : Bool :=
  (List.range ops.length).all fun i =>
    !(ops.getD i RunOp.lockOp == RunOp.iterateRegistryOp)
      || (lockDepth ops i != 0)

/-- C9 is refuted on the code: in both arms of `Run` the presence-
notification iteration over the registry runs after `mu.Unlock()`
(websocket_controller.go:133-136 and 144-147), so it is not protected by
the registry mutex. -/
theorem c9_counterexample :
    iterUnderLock registerArmOps = false
      ∧ iterUnderLock unregisterArmOps = false := by
  exact ⟨rfl, rfl⟩

/-- C9 amended: the mutex is held around the registry mutation (and the
mailbox close) of each arm, but the presence-notification iteration runs
only after the mutex has been released — the iteration is not covered by
the lock that protects registry mutation. -/
theorem c9_iteration_after_unlock :
    registerArmOps.getD 3 RunOp.lockOp = RunOp.iterateRegistryOp ∧
    lockDepth registerArmOps 3 = 0 ∧
    lockDepth registerArmOps 1 = 1 ∧
    unregisterArmOps.getD 4 RunOp.lockOp = RunOp.iterateRegistryOp ∧
    lockDepth unregisterArmOps 4 = 0 ∧
    lockDepth unregisterArmOps 1 = 1 ∧
    lockDepth unregisterArmOps 2 = 1 := by
  decide

/-- The request context of the upgrade endpoint: the values the external
authentication middleware may have attached under the `userID` and
`username` keys (read via `c.Get`, websocket_controller.go:55 and 61), and
whether the transport upgrade at line 68 succeeds. -/
structure GinContext where
  ctxUserID : Option Int
  ctxUsername : Option String
  upgradeOk : Bool

/-- Outcome of `HandleConnections`: a 401 JSON response, a failed upgrade
(logged, nothing registered), or a connected Client. -/
inductive ConnectResult
  | unauthorized
  | upgradeError
  | connected (c : Client)
  deriving DecidableEq

/-- `WebSocketController.HandleConnections` (websocket_controller.go:54-87):
a missing `userID` or `username` context value yields 401 Unauthorized
before the upgrade is attempted; a failed upgrade returns without
registering; otherwise a Client with a fresh channel is built and submitted
on the register channel. The second component is the sequence of events
submitted to the Hub Loop. -/
def handleConnections (ctx : GinContext) (newCid : Nat) :
    ConnectResult × List HubEvent :=
  match ctx.ctxUserID with
  | none => (.unauthorized, [])
  | some uid =>
      match ctx.ctxUsername with
      | none => (.unauthorized, [])
      | some uname =>
          if ctx.upgradeOk then
            (.connected ⟨newCid, uid, uname⟩, [.register ⟨newCid, uid, uname⟩])
          else (.upgradeError, [])

/-- C10 confirmed: when the request context lacks a `userID` or a
`username` value, `HandleConnections` responds 401 Unauthorized and returns
before upgrading the transport or creating a Client; no register event is
submitted, so the hub state is left unchanged. -/
theorem c10_unauthorized_no_register (ctx : GinContext) (newCid : Nat)
    (s : HubState) (h : ctx.ctxUserID = none ∨ ctx.ctxUsername = none) :
    handleConnections ctx newCid = (.unauthorized, []) ∧
    runHub s (handleConnections ctx newCid).2 = s := by
  have hres : handleConnections ctx newCid = (.unauthorized, []) := by
    rcases h with h | h
    · simp [handleConnections, h]
    · cases hu : ctx.ctxUserID with
      | none => simp [handleConnections, hu]
      | some uid => simp [handleConnections, hu, h]
  refine ⟨hres, ?_⟩
  rw [hres]
  rfl

/-- Witness for C10: a context carrying a username but no userID. -/
theorem c10_witness :
    handleConnections ⟨none, some "alice", true⟩ 5 = (.unauthorized, []) ∧
    runHub s0 (handleConnections ⟨none, some "alice", true⟩ 5).2 = s0 :=
  c10_unauthorized_no_register ⟨none, some "alice", true⟩ 5 s0 (Or.inl rfl)
